import Mathlib

/-!
Verification development for the Extraterm desktop-shell slice:
configuration sanitation (MainConfig) and the extension context /
command registration subsystem (ExtensionContextImpl, window startup).

Sources are shallowly embedded: JavaScript runtime values relevant to the
sanitation pass are modelled by the inductive `JsValue` (JSON-persisted
configuration cannot contain NaN or infinities, so numbers are modelled
as rationals), and stateful registration code is modelled by explicit
state passing together with an effect trace.
-/

namespace Extraterm

/-! ## JavaScript value model for configuration sanitation -/

/-- A JavaScript runtime value as it can occur in a persisted
configuration object: missing (undefined), null, boolean, number
(JSON numbers only, so a rational), string, or some other object.
Objects are represented by an identity token since the sanitation code
never inspects their contents. -/
inductive JsValue where
  | undefined
  | null
  | bool (b : Bool)
  | num (q : ℚ)
  | str (s : String)
  | obj (id : ℕ)
deriving DecidableEq, Repr

/-- The JavaScript `typeof` operator on a `JsValue`.  Note that
`typeof null` is `"object"`. -/
def jsTypeof : JsValue → String
  | .undefined => "undefined"
  | .null => "object"
  | .bool _ => "boolean"
  | .num _ => "number"
  | .str _ => "string"
  | .obj _ => "object"

/-- JavaScript loose equality to null (`x == null`), true exactly for
`null` and `undefined`. -/
def isNullish : JsValue → Bool
  | .undefined => true
  | .null => true
  | _ => false

/-- Embedding of `sanitizeField` (part_001 lines 319-323): replace the
field by the default when it is nullish or its `typeof` differs from
the `typeof` of the default. -/
def sanitizeField (v : JsValue) (defaultValue : JsValue) : JsValue :=
  if isNullish v = true ∨ jsTypeof v ≠ jsTypeof defaultValue then defaultValue else v

/-- Embedding of `sanitizeStringEnumField` (part_001 lines 325-332):
nullish values and values outside the list of available strings are
replaced by the default. -/
def sanitizeStringEnumField (v : JsValue) (availableValues : List String)
    (defaultValue : String) : JsValue :=
  if isNullish v = true then .str defaultValue
  else
    match v with
    | .str s => if s ∈ availableValues then JsValue.str s else .str defaultValue
    | _ => .str defaultValue

/-- `Math.max(Math.min(hi, x), lo)` on a numeric field.  After
`sanitizeField` the field is always a number, so the non-number branch
is unreachable and kept as the identity. -/
def clampNum (lo hi : ℚ) : JsValue → JsValue
  | .num q => .num (max (min hi q) lo)
  | v => v

/-- `Math.min(500, Math.max(5, x || 100))` for `uiScalePercent`; the
JavaScript `x || 100` turns the falsy number 0 into 100. -/
def uiScaleClampNum : JsValue → JsValue
  | .num q => .num (min 500 (max 5 (if q = 0 then 100 else q)))
  | v => v

def KEYBINDINGS_OSX : String := "macos-style"

def KEYBINDINGS_PC : String := "pc-style"

def DEFAULT_TERMINALFONT : String := "LigaDejaVuSansMono"

def frameRules : List String := ["always_frame", "frame_if_lines", "never_frame"]

/-- The general configuration object as read from disk; every field may
hold an arbitrary JavaScript value.  Field list follows
`sanitizeGeneralConfig` (part_001 lines 188-274). -/
structure GeneralConfig where
  autoCopySelectionToClipboard : JsValue
  blinkingCursor : JsValue
  cursorStyle : JsValue
  frameByDefault : JsValue
  frameRule : JsValue
  frameRuleLines : JsValue
  gpuDriverWorkaround : JsValue
  isHardwareAccelerated : JsValue
  keybindingsName : JsValue
  minimizeToTray : JsValue
  scrollbackMaxFrames : JsValue
  scrollbackMaxLines : JsValue
  showTips : JsValue
  showTrayIcon : JsValue
  terminalFont : JsValue
  terminalFontSize : JsValue
  terminalDisplayLigatures : JsValue
  terminalMarginStyle : JsValue
  tipCounter : JsValue
  tipTimestamp : JsValue
  titleBarStyle : JsValue
  uiScalePercent : JsValue
  windowBackgroundMode : JsValue
  windowBackgroundTransparencyPercent : JsValue
  closeWindowWhenEmpty : JsValue
  middleMouseButtonAction : JsValue
  middleMouseButtonShiftAction : JsValue
  middleMouseButtonControlAction : JsValue
  rightMouseButtonAction : JsValue
  rightMouseButtonShiftAction : JsValue
  rightMouseButtonControlAction : JsValue
  activeExtensions : JsValue
  themeTerminal : JsValue
  themeSyntax : JsValue
  themeGUI : JsValue
deriving DecidableEq, Repr

/-- External collaborators of `sanitizeGeneralConfig` that live outside
the provided sources: the process platform string, the list
`AllLogicalKeybindingsNames`, the available font postscript names, the
theme manager (represented by the type of each known theme name), and
the two fallback theme name constants. -/
structure SanitizeEnv where
  platform : String
  allLogicalKeybindingsNames : List String
  availableFonts : List String
  getThemeType : String → Option String
  fallbackTerminalTheme : String
  fallbackSyntaxTheme : String

/-- Embedding of `isThemeType` (part_001 lines 169-174) with a
`ThemeInfo` represented by its type string (`none` models a null
`ThemeInfo`). -/
def isThemeType (themeInfo : Option String) (themeType : String) : Bool :=
  match themeInfo with
  | none => false
  | some t => t = themeType

/-- `themeManager.getTheme` applied to a configuration field value;
non-string values name no theme. -/
def jsGetThemeType (env : SanitizeEnv) : JsValue → Option String
  | .str s => env.getThemeType s
  | _ => none

/-- Does `availableFonts.some(font => font.postscriptName === v)` hold? -/
def fontAvailable (env : SanitizeEnv) : JsValue → Bool
  | .str s => s ∈ env.availableFonts
  | _ => false

/-- `AllLogicalKeybindingsNames.includes(v)` on a field value. -/
def keybindingsNameKnown (env : SanitizeEnv) : JsValue → Bool
  | .str s => s ∈ env.allLogicalKeybindingsNames
  | _ => false

/-- Embedding of `sanitizeGeneralConfig` (part_001 lines 188-274) as a
pure transform on the general configuration object; the read from and
write back to the `ConfigDatabase` frame the transform and are elided. -/
def sanitizeGeneralConfig (env : SanitizeEnv) (g : GeneralConfig) : GeneralConfig :=
  let configCursorStyles : List String := ["block", "underscore", "beam"]
  let keybindingsDefault : String :=
    if env.platform = "darwin" then KEYBINDINGS_OSX else KEYBINDINGS_PC
  let keybindingsName0 := sanitizeField g.keybindingsName (.str keybindingsDefault)
  let keybindingsName1 :=
    if keybindingsNameKnown env keybindingsName0 = true then keybindingsName0
    else .str keybindingsDefault
  let terminalFont0 := sanitizeField g.terminalFont (.str DEFAULT_TERMINALFONT)
  let terminalFont1 :=
    if fontAvailable env terminalFont0 = true then terminalFont0
    else .str DEFAULT_TERMINALFONT
  let themeTerminal0 := sanitizeField g.themeTerminal (.str env.fallbackTerminalTheme)
  let themeTerminal1 :=
    if isThemeType (jsGetThemeType env themeTerminal0) "terminal" = true then themeTerminal0
    else .str env.fallbackTerminalTheme
  let themeSyntax0 := sanitizeField g.themeSyntax (.str env.fallbackSyntaxTheme)
  let themeSyntax1 :=
    if isThemeType (jsGetThemeType env themeSyntax0) "syntax" = true then themeSyntax0
    else .str env.fallbackSyntaxTheme
  let themeGUI0 := sanitizeField g.themeGUI (.str "two-dark-ui")
  let themeGUI1 :=
    if themeGUI0 = .str "default" ∨ isThemeType (jsGetThemeType env themeGUI0) "gui" = false
    then JsValue.str "two-dark-ui" else themeGUI0
  { autoCopySelectionToClipboard := sanitizeField g.autoCopySelectionToClipboard (.bool true)
    blinkingCursor := sanitizeField g.blinkingCursor (.bool false)
    cursorStyle := sanitizeStringEnumField g.cursorStyle configCursorStyles "block"
    frameByDefault := sanitizeField g.frameByDefault (.bool true)
    frameRule := sanitizeStringEnumField g.frameRule frameRules "frame_if_lines"
    frameRuleLines := sanitizeField g.frameRuleLines (.num 10)
    gpuDriverWorkaround := sanitizeStringEnumField g.gpuDriverWorkaround ["none", "no_blend"] "none"
    isHardwareAccelerated := .bool true
    keybindingsName := keybindingsName1
    minimizeToTray := sanitizeField g.minimizeToTray (.bool false)
    scrollbackMaxFrames := sanitizeField g.scrollbackMaxFrames (.num 100)
    scrollbackMaxLines := sanitizeField g.scrollbackMaxLines (.num 500000)
    showTips := sanitizeStringEnumField g.showTips ["always", "daily", "never"] "always"
    showTrayIcon := sanitizeField g.showTrayIcon (.bool false)
    terminalFont := terminalFont1
    terminalFontSize := clampNum 4 1024 (sanitizeField g.terminalFontSize (.num 13))
    terminalDisplayLigatures := sanitizeField g.terminalDisplayLigatures (.bool true)
    terminalMarginStyle :=
      sanitizeStringEnumField g.terminalMarginStyle ["normal", "none", "thick", "thin"] "normal"
    tipCounter := sanitizeField g.tipCounter (.num 0)
    tipTimestamp := sanitizeField g.tipTimestamp (.num 0)
    titleBarStyle := sanitizeStringEnumField g.titleBarStyle ["compact", "native", "theme"] "compact"
    uiScalePercent := uiScaleClampNum (sanitizeField g.uiScalePercent (.num 100))
    windowBackgroundMode :=
      sanitizeStringEnumField g.windowBackgroundMode ["opaque", "blur"] "opaque"
    windowBackgroundTransparencyPercent :=
      clampNum 0 100 (sanitizeField g.windowBackgroundTransparencyPercent (.num 50))
    closeWindowWhenEmpty := sanitizeField g.closeWindowWhenEmpty (.bool true)
    middleMouseButtonAction := sanitizeField g.middleMouseButtonAction (.str "paste")
    middleMouseButtonShiftAction := sanitizeField g.middleMouseButtonShiftAction (.str "paste")
    middleMouseButtonControlAction := sanitizeField g.middleMouseButtonControlAction (.str "paste")
    rightMouseButtonAction := sanitizeField g.rightMouseButtonAction (.str "context_menu")
    rightMouseButtonShiftAction := sanitizeField g.rightMouseButtonShiftAction (.str "context_menu")
    rightMouseButtonControlAction :=
      sanitizeField g.rightMouseButtonControlAction (.str "context_menu")
    activeExtensions := sanitizeField g.activeExtensions (.obj 0)
    themeTerminal := themeTerminal1
    themeSyntax := themeSyntax1
    themeGUI := themeGUI1 }

/-- A session configuration entry as read from disk. -/
structure SessionConfigurationJs where
  name : JsValue
  uuid : JsValue
  sessionType : JsValue
  initialDirectory : JsValue
  args : JsValue
deriving DecidableEq, Repr

/-- The persisted session configuration: either not an array at all
(including null), or a list of entries. -/
inductive SessionConfigInput where
  | notArray
  | arr (sessions : List SessionConfigurationJs)
deriving DecidableEq, Repr

/-- Sanitize one session entry (body of the loop in
`sanitizeSessionConfig`, part_001 lines 283-296); `freshUuid` stands
for the `createUuid()` call evaluated for this entry. -/
def sanitizeSessionConfiguration (freshUuid : String)
    (s : SessionConfigurationJs) : SessionConfigurationJs :=
  { name := sanitizeField s.name (.str "")
    uuid := sanitizeField s.uuid (.str freshUuid)
    sessionType := if jsTypeof s.sessionType ≠ "string" then .str "" else s.sessionType
    initialDirectory :=
      if isNullish s.initialDirectory = true ∨ jsTypeof s.initialDirectory ≠ "string"
      then JsValue.null else s.initialDirectory
    args := sanitizeField s.args (.str "") }

/-- Embedding of `sanitizeSessionConfig` (part_001 lines 276-299):
a missing or non-array session list becomes the empty list, otherwise
every entry is sanitized in place.  `freshUuid i` models the
`createUuid()` result for the entry at index `i`. -/
def sanitizeSessionConfig (freshUuid : ℕ → String) :
    SessionConfigInput → List SessionConfigurationJs
  | .notArray => []
  | .arr sessions =>
    sessions.mapIdx (fun i s => sanitizeSessionConfiguration (freshUuid i) s)

/-! ## Association list helpers (JavaScript `Map` semantics) -/

/-- `Map.get`: the value at the first matching key, if any. -/
def alistLookup {β : Type} (k : String) : List (String × β) → Option β
  | [] => none
  | (k2, v) :: rest => if k2 = k then some v else alistLookup k rest

/-- `Map.set`: replace the value at an existing key in place, otherwise
append a new entry at the end. -/
def alistSet {β : Type} (k : String) (v : β) : List (String × β) → List (String × β)
  | [] => [(k, v)]
  | (k2, v2) :: rest =>
    if k2 = k then (k, v) :: rest else (k2, v2) :: alistSet k v rest

/-- `Map.delete`: remove the first entry with the given key. -/
def alistEraseKey {β : Type} (k : String) : List (String × β) → List (String × β)
  | [] => []
  | (k2, v2) :: rest => if k2 = k then rest else (k2, v2) :: alistEraseKey k rest

/-! ## Extension command contributions and the commands registry -/

/-- An `ExtensionCommandContribution`: command id, presentation data and
the per-menu-type boolean placement flags. -/
structure ExtensionCommandContribution where
  command : String
  title : String
  category : String
  order : ℕ
  whenClause : String
  icon : String
  contextMenu : Bool
  commandPalette : Bool
  emptyPane : Bool
  newTerminal : Bool
  windowMenu : Bool
deriving DecidableEq, Repr

/-- The closed set of menu placement flags (`ExtensionMenusContribution`
keys). -/
inductive MenuType where
  | contextMenu
  | commandPalette
  | emptyPane
  | newTerminal
  | windowMenu
deriving DecidableEq, Repr

/-- `entry[menuType] = on` on one contribution. -/
def setMenuFlag (menuType : MenuType) (onFlag : Bool)
    (entry : ExtensionCommandContribution) : ExtensionCommandContribution :=
  match menuType with
  | .contextMenu => { entry with contextMenu := onFlag }
  | .commandPalette => { entry with commandPalette := onFlag }
  | .emptyPane => { entry with emptyPane := onFlag }
  | .newTerminal => { entry with newTerminal := onFlag }
  | .windowMenu => { entry with windowMenu := onFlag }

/-- Read one menu placement flag of a contribution. -/
def getMenuFlag (menuType : MenuType) (entry : ExtensionCommandContribution) : Bool :=
  match menuType with
  | .contextMenu => entry.contextMenu
  | .commandPalette => entry.commandPalette
  | .emptyPane => entry.emptyPane
  | .newTerminal => entry.newTerminal
  | .windowMenu => entry.windowMenu

/-- Modelled from the spec: the `CommandsRegistry` class is not under
src/ (only its callers are).  Per spec sections 4.1 and 8 it keeps an
internal map from command id to a menu-entry list
(`_commandToMenuEntryMap`, read directly by `_setCommandMenu`), and the
set of command ids for which `getCommandFunction` returns a non-null
handler; the handler functions themselves carry no further observable
structure, so the function map is modelled by its key set. -/
structure CommandsRegistry where
  commandIds : List String
  commandToMenuEntryMap : List (String × List ExtensionCommandContribution)
deriving DecidableEq, Repr

/-- Modelled from the spec: `getCommandFunction(id) -> handler | null`
(spec section 4.1); non-null exactly for registered command ids. -/
def CommandsRegistry.getCommandFunction (reg : CommandsRegistry)
    (command : String) : Option Unit :=
  if command ∈ reg.commandIds then some () else none

/-- Modelled from the spec: `CommandsRegistry.registerCommandContribution`
(called at part_000 line 88, class not under src/).  It adds the
contribution to the menu-entry list of its command id and makes
`getCommandFunction` of that id non-null (spec sections 4.1 and 8). -/
def CommandsRegistry.registerCommandContribution (reg : CommandsRegistry)
    (contribution : ExtensionCommandContribution) : CommandsRegistry :=
  { commandIds :=
      if contribution.command ∈ reg.commandIds then reg.commandIds
      else reg.commandIds ++ [contribution.command]
    commandToMenuEntryMap :=
      match alistLookup contribution.command reg.commandToMenuEntryMap with
      | none => reg.commandToMenuEntryMap ++ [(contribution.command, [contribution])]
      | some entryList =>
        alistSet contribution.command (entryList ++ [contribution])
          reg.commandToMenuEntryMap }

/-- Modelled from the spec: the disposable returned by
`CommandsRegistry.registerCommandContribution` removes the registration
from the internal maps again (spec section 4.1: disposal removes the
entry from the registry internal map and the command id set returns to
its pre-registration state). -/
def CommandsRegistry.disposeContribution (reg : CommandsRegistry)
    (contribution : ExtensionCommandContribution) : CommandsRegistry :=
  { commandIds := reg.commandIds.erase contribution.command
    commandToMenuEntryMap :=
      match alistLookup contribution.command reg.commandToMenuEntryMap with
      | none => reg.commandToMenuEntryMap
      | some entryList =>
        let remaining := entryList.erase contribution
        if remaining.isEmpty then
          alistEraseKey contribution.command reg.commandToMenuEntryMap
        else alistSet contribution.command remaining reg.commandToMenuEntryMap }

/-! ## ExtensionContextImpl state and command contribution registration -/

/-- The mutable state touched by `_registerCommandContribution`: the
metadata's live command list and the commands registry. -/
structure ExtensionContextState where
  metadataCommands : List ExtensionCommandContribution
  commands : CommandsRegistry
deriving DecidableEq, Repr

/-- Observable side effects of registration and disposal, in execution
order. -/
inductive RegEffect where
  | metadataAppend (c : ExtensionCommandContribution)
  | registryRegister (c : ExtensionCommandContribution)
  | notifyChanged
  | registryUnregister (c : ExtensionCommandContribution)
  | metadataRemove (c : ExtensionCommandContribution)
deriving DecidableEq, Repr

/-- Embedding of `ExtensionContextImpl._registerCommandContribution`
(part_000 lines 86-98), up to the returned disposable: push the
contribution onto the metadata command list, register it in the
commands registry, then fire `commandRegistrationChanged`.  Returns the
new state together with the trace of effects. -/
def ExtensionContextImpl.registerCommandContribution (s : ExtensionContextState)
    (contribution : ExtensionCommandContribution) :
    ExtensionContextState × List RegEffect :=
  ({ metadataCommands := s.metadataCommands ++ [contribution]
     commands := s.commands.registerCommandContribution contribution },
   [.metadataAppend contribution, .registryRegister contribution, .notifyChanged])

/-- `indexOf` followed by `splice(index, 1)`: removes the first
occurrence when present; when absent `indexOf` yields `-1` and
`splice(-1, 1)` removes the last element. -/
def metadataSplice (commands : List ExtensionCommandContribution)
    (contribution : ExtensionCommandContribution) : List ExtensionCommandContribution :=
  if contribution ∈ commands then commands.erase contribution else commands.dropLast

/-- Embedding of the disposable returned by
`_registerCommandContribution` (part_000 lines 90-97): fire
`commandRegistrationChanged`, dispose the registry registration, then
remove the contribution from the metadata command list via
`indexOf`/`splice`. -/
def ExtensionContextImpl.disposeCommandContribution (s : ExtensionContextState)
    (contribution : ExtensionCommandContribution) :
    ExtensionContextState × List RegEffect :=
  ({ metadataCommands := metadataSplice s.metadataCommands contribution
     commands := s.commands.disposeContribution contribution },
   [.notifyChanged, .registryUnregister contribution, .metadataRemove contribution])

/-- The inverse effect of each registration effect. -/
def undoEffect : RegEffect → RegEffect
  | .metadataAppend c => .metadataRemove c
  | .registryRegister c => .registryUnregister c
  | .notifyChanged => .notifyChanged
  | .registryUnregister c => .registryRegister c
  | .metadataRemove c => .metadataAppend c

/-- Embedding of `ExtensionContextImpl._setCommandMenu` (part_000 lines
100-108): when the registry has no menu-entry list for the command id
return unchanged, otherwise set the flag on every entry of that list. -/
def ExtensionContextImpl.setCommandMenu (s : ExtensionContextState) (command : String)
    (menuType : MenuType) (onFlag : Bool) : ExtensionContextState :=
  match alistLookup command s.commands.commandToMenuEntryMap with
  | none => s
  | some entryList =>
    { s with
      commands :=
        { s.commands with
          commandToMenuEntryMap :=
            alistSet command (entryList.map (setMenuFlag menuType onFlag))
              s.commands.commandToMenuEntryMap } }

/-! ## Tab title widgets -/

/-- A metadata-declared tab title widget contribution (name and css). -/
structure TabTitleWidgetContribution where
  name : String
  css : String
deriving DecidableEq, Repr

/-- An `ExtensionContainerElement` as observable from
`_createTabTitleWidgets`: a freshly created container carrying the css
of the contribution it was built for.  Factories are opaque and
represented by numeric tokens. -/
structure ExtensionContainerElement where
  extensionCss : String
deriving DecidableEq, Repr

/-- Embedding of `ExtensionContextImpl._registerTabTitleWidget`
(part_000 lines 110-121): scan the metadata contributions; on a name
match insert the factory into the factory map and return, otherwise
fall through to a warning.  Returns the new factory map and the list of
warnings logged. -/
def ExtensionContextImpl.registerTabTitleWidget :
    List TabTitleWidgetContribution → List (String × ℕ) → String → ℕ →
    List (String × ℕ) × List String
  | [], factoryMap, name, _ =>
    (factoryMap,
     ["Unknown tab title widget " ++ name ++ " given to registerTabTitleWidget()."])
  | data :: rest, factoryMap, name, factory =>
    if data.name = name then (alistSet name factory factoryMap, [])
    else ExtensionContextImpl.registerTabTitleWidget rest factoryMap name factory

/-- Embedding of `ExtensionContextImpl._createTabTitleWidgets`
(part_000 lines 123-141): walk the metadata contributions in order; for
each one whose name has a registered factory, create a container
element carrying the contribution css and collect it; contributions
without a factory are skipped. -/
def ExtensionContextImpl.createTabTitleWidgets :
    List TabTitleWidgetContribution → List (String × ℕ) → List ExtensionContainerElement
  | [], _ => []
  | contrib :: rest, factoryMap =>
    match alistLookup contrib.name factoryMap with
    | some _ =>
      { extensionCss := contrib.css } ::
        ExtensionContextImpl.createTabTitleWidgets rest factoryMap
    | none => ExtensionContextImpl.createTabTitleWidgets rest factoryMap

/-! ## The backend capability boundary -/

def backendWarningMessage : String :=
  "ExtensionContext.backend is not available from a render process."

/-- Embedding of the `ExtensionContextImpl.backend` getter (part_000
lines 69-72): append a warning to the log, then throw (an `error`
result); there is no success branch. -/
def ExtensionContextImpl.backend (logs : List String) :
    List String × Except String Unit :=
  (logs ++ [backendWarningMessage], Except.error backendWarningMessage)

/-! ## IPC command execution -/

/-- An `ExecuteCommandMessage` arriving over IPC: correlation uuid,
command name and (opaque) arguments. -/
structure ExecuteCommandMessage where
  uuid : String
  commandName : String
  args : String
deriving DecidableEq, Repr

/-- The response sent by `WebIpc.commandResponse(msg.uuid, result,
exception)`. -/
structure CommandResponseMessage where
  uuid : String
  result : Option String
  exception : Option String
deriving DecidableEq, Repr

/-- Embedding of `handleExecuteCommand` (part_000 lines 374-390): run
`extensionManager.executeCommand` (and await its promise) inside a
try/catch; on success the result is sent back, on a throw or rejection
the caught exception is sent back, always paired with the uuid of the
request. -/
def handleExecuteCommand (executeCommand : String → String → Except String String)
    (msg : ExecuteCommandMessage) : CommandResponseMessage :=
  match executeCommand msg.commandName msg.args with
  | .ok r => { uuid := msg.uuid, result := some r, exception := none }
  | .error e => { uuid := msg.uuid, result := none, exception := some e }

/-- Modelled from the spec: `ExtensionManager.executeCommand` is not
under src/.  Per spec sections 4.3 and 8 it looks up the handler for
the command id and invokes it (the handler may succeed or fail), and an
unregistered id yields a not-found error rather than an exception that
escapes uncaught. -/
def executeCommandSpec (handlers : List (String × (String → Except String String)))
    (commandName : String) (args : String) : Except String String :=
  match alistLookup commandName handlers with
  | none => Except.error ("Command " ++ commandName ++ " not found.")
  | some handler => handler args

/-! ## Keybinding conflict resolution -/

/-- The observable outcome of `handleKeyCapture`: the command executed
(if any), the warnings logged, and whether the event was consumed. -/
structure KeyCaptureResult where
  executedCommand : Option String
  warnings : List String
  stopPropagation : Bool
  preventDefault : Bool
deriving DecidableEq, Repr

/-- The warning text built at part_000 line 519 from the full list of
matching command ids. -/
def conflictWarningMessage (commandIds : List String) : String :=
  "Commands " ++ String.intercalate ", " commandIds ++ " have conflicting keybindings."

/-- Embedding of the dispatch part of `handleKeyCapture` (part_000
lines 503-526), applied to the filtered command list produced by the
keybinding lookup: when the list is non-empty, warn if its length is
not one (naming every matching command id) and execute the command at
index 0, consuming the event; otherwise do nothing. -/
def handleKeyCapture (filteredCommands : List ExtensionCommandContribution) :
    KeyCaptureResult :=
  match filteredCommands with
  | [] =>
    { executedCommand := none, warnings := [],
      stopPropagation := false, preventDefault := false }
  | first :: rest =>
    { executedCommand := some first.command
      warnings :=
        if (first :: rest).length ≠ 1 then
          [conflictWarningMessage ((first :: rest).map (fun fc => fc.command))]
        else []
      stopPropagation := true
      preventDefault := true }

/-! ## Helper lemmas -/

theorem alistLookup_alistSet_self {β : Type} (k : String) (v : β) :
    ∀ m : List (String × β), alistLookup k (alistSet k v m) = some v := by
  intro m
  induction m with
  | nil => simp [alistSet, alistLookup]
  | cons hd tl ih =>
    obtain ⟨k2, v2⟩ := hd
    by_cases h : k2 = k
    · simp [alistSet, alistLookup, h]
    · simp [alistSet, alistLookup, h, ih]

theorem alistSet_of_lookup_eq {β : Type} (k : String) (v : β) :
    ∀ m : List (String × β), alistLookup k m = some v → alistSet k v m = m := by
  intro m
  induction m with
  | nil => simp [alistLookup]
  | cons hd tl ih =>
    obtain ⟨k2, v2⟩ := hd
    by_cases h : k2 = k
    · simp [alistLookup, alistSet, h]
      intro hv
      exact hv.symm
    · simp [alistLookup, alistSet, h]
      exact ih

theorem alistSet_alistSet {β : Type} (k : String) (v1 v2 : β) :
    ∀ m : List (String × β), alistSet k v2 (alistSet k v1 m) = alistSet k v2 m := by
  intro m
  induction m with
  | nil => simp [alistSet]
  | cons hd tl ih =>
    obtain ⟨k2, v0⟩ := hd
    by_cases h : k2 = k
    · simp [alistSet, h]
    · simp [alistSet, h, ih]

theorem alistLookup_append_of_lookup_none {β : Type} (k : String) (m2 : List (String × β)) :
    ∀ m : List (String × β), alistLookup k m = none →
      alistLookup k (m ++ m2) = alistLookup k m2 := by
  intro m
  induction m with
  | nil => simp
  | cons hd tl ih =>
    obtain ⟨k2, v2⟩ := hd
    by_cases h : k2 = k
    · simp [alistLookup, h]
    · simp [alistLookup, h]
      exact ih

theorem alistEraseKey_append_singleton_of_lookup_none {β : Type} (k : String) (v : β) :
    ∀ m : List (String × β), alistLookup k m = none →
      alistEraseKey k (m ++ [(k, v)]) = m := by
  intro m
  induction m with
  | nil => simp [alistEraseKey]
  | cons hd tl ih =>
    obtain ⟨k2, v2⟩ := hd
    by_cases h : k2 = k
    · simp [alistLookup, h]
    · simp [alistLookup, alistEraseKey, h]
      exact ih

theorem getMenuFlag_setMenuFlag (menuType : MenuType) (onFlag : Bool)
    (entry : ExtensionCommandContribution) :
    getMenuFlag menuType (setMenuFlag menuType onFlag entry) = onFlag := by
  cases menuType <;> rfl

/-- A command contribution carrying only a command id, used by concrete
witnesses. -/
def mkContribution (cmd : String) : ExtensionCommandContribution :=
  { command := cmd, title := "", category := "window", order := 0, whenClause := "",
    icon := "", contextMenu := false, commandPalette := true, emptyPane := false,
    newTerminal := false, windowMenu := false }

/-! ## Claim theorems -/

/-- C5: every access of the `backend` property of a render-process
extension context appends the warning to the log and yields a thrown
error (an `Except.error`, never a success value). -/
theorem backend_warns_and_throws (logs : List String) :
    (ExtensionContextImpl.backend logs).1 = logs ++ [backendWarningMessage] ∧
    (ExtensionContextImpl.backend logs).2 = Except.error backendWarningMessage := by
  exact ⟨rfl, rfl⟩

/-- C4: `_createTabTitleWidgets` returns exactly one container element
per metadata tab-title-widget contribution whose name has a registered
factory, in metadata declaration order; contributions without a factory
are skipped without error. -/
theorem createTabTitleWidgets_one_container_per_registered_contribution
    (contribs : List TabTitleWidgetContribution) (factoryMap : List (String × ℕ)) :
    ExtensionContextImpl.createTabTitleWidgets contribs factoryMap
      = (contribs.filter
          (fun contrib => (alistLookup contrib.name factoryMap).isSome)).map
          (fun contrib => { extensionCss := contrib.css }) := by
  induction contribs with
  | nil => rfl
  | cons contrib rest ih =>
    cases h : alistLookup contrib.name factoryMap with
    | none => simp [ExtensionContextImpl.createTabTitleWidgets, h, List.filter_cons, ih]
    | some f => simp [ExtensionContextImpl.createTabTitleWidgets, h, List.filter_cons, ih]

/-- C7: registering a tab title widget factory under a name absent from
the metadata contributions logs the unknown-widget warning and leaves
the factory map unchanged (and, being a total function, throws
nothing); under a declared name the factory is inserted into the map
and no warning is logged. -/
theorem registerTabTitleWidget_unknown_name_no_insert
    (tabTitleWidgetMeta : List TabTitleWidgetContribution)
    (factoryMap : List (String × ℕ)) (name : String) (factory : ℕ) :
    ((∀ data ∈ tabTitleWidgetMeta, data.name ≠ name) →
      ExtensionContextImpl.registerTabTitleWidget tabTitleWidgetMeta factoryMap name factory
        = (factoryMap,
           ["Unknown tab title widget " ++ name ++ " given to registerTabTitleWidget()."])) ∧
    ((∃ data ∈ tabTitleWidgetMeta, data.name = name) →
      ExtensionContextImpl.registerTabTitleWidget tabTitleWidgetMeta factoryMap name factory
        = (alistSet name factory factoryMap, [])) := by
  induction tabTitleWidgetMeta with
  | nil =>
    constructor
    · intro _
      rfl
    · rintro ⟨data, hmem, _⟩
      exact absurd hmem (List.not_mem_nil data)
  | cons data rest ih =>
    constructor
    · intro h
      have hdata : data.name ≠ name := h data (List.mem_cons_self data rest)
      rw [ExtensionContextImpl.registerTabTitleWidget, if_neg hdata]
      exact ih.1 (fun d hd => h d (List.mem_cons_of_mem data hd))
    · rintro ⟨d, hmem, hname⟩
      by_cases hdata : data.name = name
      · rw [ExtensionContextImpl.registerTabTitleWidget, if_pos hdata]
      · rw [ExtensionContextImpl.registerTabTitleWidget, if_neg hdata]
        rcases List.mem_cons.mp hmem with heq | hrest
        · exact absurd (heq ▸ hname) hdata
        · exact ih.2 ⟨d, hrest, hname⟩

/-- C7 witness: with metadata declaring only a widget named `w1`,
registering under the unknown name `w2` warns and leaves the factory
map unchanged, and registering under `w1` inserts the factory. -/
theorem registerTabTitleWidget_unknown_name_no_insert_witness :
    ExtensionContextImpl.registerTabTitleWidget
        [{ name := "w1", css := "" }] [] "w2" 7
      = ([], ["Unknown tab title widget w2 given to registerTabTitleWidget()."]) ∧
    ExtensionContextImpl.registerTabTitleWidget
        [{ name := "w1", css := "" }] [] "w1" 7
      = ([("w1", 7)], []) := by
  constructor
  · exact (registerTabTitleWidget_unknown_name_no_insert
      [{ name := "w1", css := "" }] [] "w2" 7).1 (by decide)
  · exact (registerTabTitleWidget_unknown_name_no_insert
      [{ name := "w1", css := "" }] [] "w1" 7).2 ⟨{ name := "w1", css := "" }, by decide, rfl⟩

/-- C8: `_setCommandMenu` is a no-op when the registry has no menu
entry list for the command id; when it has one, the menu-type flag of
every entry in that list is set to the given value. -/
theorem setCommandMenu_flags_every_entry (s : ExtensionContextState) (command : String)
    (menuType : MenuType) (onFlag : Bool) :
    (alistLookup command s.commands.commandToMenuEntryMap = none →
      ExtensionContextImpl.setCommandMenu s command menuType onFlag = s) ∧
    (∀ entryList, alistLookup command s.commands.commandToMenuEntryMap = some entryList →
      alistLookup command
          (ExtensionContextImpl.setCommandMenu
            s command menuType onFlag).commands.commandToMenuEntryMap
        = some (entryList.map (setMenuFlag menuType onFlag)) ∧
      ∀ entry ∈ entryList.map (setMenuFlag menuType onFlag),
        getMenuFlag menuType entry = onFlag) := by
  constructor
  · intro h
    rw [ExtensionContextImpl.setCommandMenu, h]
  · intro entryList h
    constructor
    · rw [ExtensionContextImpl.setCommandMenu, h]
      exact alistLookup_alistSet_self command _ _
    · intro entry hentry
      rcases List.mem_map.mp hentry with ⟨e, _, he⟩
      rw [← he]
      exact getMenuFlag_setMenuFlag menuType onFlag e

/-- C8 witness: on a registry with no entry list for `x:c` the call is
a no-op, and on one with an entry list for `x:c` the flag is set on its
entry. -/
theorem setCommandMenu_flags_every_entry_witness :
    (ExtensionContextImpl.setCommandMenu
        { metadataCommands := [], commands := { commandIds := [], commandToMenuEntryMap := [] } }
        "x:c" MenuType.commandPalette true
      = { metadataCommands := [], commands := { commandIds := [], commandToMenuEntryMap := [] } }) ∧
    alistLookup "x:c"
        (ExtensionContextImpl.setCommandMenu
          { metadataCommands := [mkContribution "x:c"]
            commands :=
              { commandIds := ["x:c"]
                commandToMenuEntryMap := [("x:c", [mkContribution "x:c"])] } }
          "x:c" MenuType.newTerminal true).commands.commandToMenuEntryMap
      = some [setMenuFlag MenuType.newTerminal true (mkContribution "x:c")] := by
  constructor
  · exact (setCommandMenu_flags_every_entry
      { metadataCommands := [], commands := { commandIds := [], commandToMenuEntryMap := [] } }
      "x:c" MenuType.commandPalette true).1 rfl
  · exact ((setCommandMenu_flags_every_entry
      { metadataCommands := [mkContribution "x:c"]
        commands :=
          { commandIds := ["x:c"]
            commandToMenuEntryMap := [("x:c", [mkContribution "x:c"])] } }
      "x:c" MenuType.newTerminal true).2 [mkContribution "x:c"] rfl).1

/-- C3: when the keybinding lookup yields a non-empty filtered command
list, exactly the first command in the list is executed and the event
is consumed; when the list has more than one element a single warning
is logged naming all matching command ids, and no warning is logged for
a unique match. -/
theorem handleKeyCapture_executes_first_and_warns_conflicts
    (filteredCommands : List ExtensionCommandContribution)
    (h : filteredCommands ≠ []) :
    (handleKeyCapture filteredCommands).executedCommand
        = some ((filteredCommands.head h).command) ∧
    (1 < filteredCommands.length →
      (handleKeyCapture filteredCommands).warnings
        = [conflictWarningMessage (filteredCommands.map (fun fc => fc.command))]) ∧
    (filteredCommands.length = 1 →
      (handleKeyCapture filteredCommands).warnings = []) ∧
    (handleKeyCapture filteredCommands).stopPropagation = true ∧
    (handleKeyCapture filteredCommands).preventDefault = true := by
  cases filteredCommands with
  | nil => exact absurd rfl h
  | cons first rest =>
    refine ⟨rfl, ?_, ?_, rfl, rfl⟩
    · intro hlen
      have hne : (first :: rest).length ≠ 1 := by omega
      simp only [handleKeyCapture, if_pos hne]
    · intro hlen
      simp only [handleKeyCapture, hlen]
      simp

/-- C3 witness: with two conflicting matches, the first is executed and
the warning names both ids. -/
theorem handleKeyCapture_executes_first_and_warns_conflicts_witness :
    (handleKeyCapture [mkContribution "ext:one", mkContribution "ext:two"]).executedCommand
      = some "ext:one" ∧
    (handleKeyCapture [mkContribution "ext:one", mkContribution "ext:two"]).warnings
      = [conflictWarningMessage ["ext:one", "ext:two"]] := by
  have h := handleKeyCapture_executes_first_and_warns_conflicts
    [mkContribution "ext:one", mkContribution "ext:two"] (by simp)
  refine ⟨h.1, ?_⟩
  have hw := h.2.1 (by simp)
  simpa [mkContribution] using hw

/-- C2: every IPC command execution request produces a response paired
with the correlation uuid of the request; a handler error (throw or
rejection) is caught and sent back as the exception value, a success is
sent back as the result, and an unregistered command id produces the
not-found error value rather than an escaping exception. -/
theorem handleExecuteCommand_catches_errors
    (handlers : List (String × (String → Except String String)))
    (msg : ExecuteCommandMessage) :
    (handleExecuteCommand (executeCommandSpec handlers) msg).uuid = msg.uuid ∧
    (∀ e, executeCommandSpec handlers msg.commandName msg.args = Except.error e →
      handleExecuteCommand (executeCommandSpec handlers) msg
        = { uuid := msg.uuid, result := none, exception := some e }) ∧
    (∀ r, executeCommandSpec handlers msg.commandName msg.args = Except.ok r →
      handleExecuteCommand (executeCommandSpec handlers) msg
        = { uuid := msg.uuid, result := some r, exception := none }) ∧
    (alistLookup msg.commandName handlers = none →
      handleExecuteCommand (executeCommandSpec handlers) msg
        = { uuid := msg.uuid, result := none,
            exception := some ("Command " ++ msg.commandName ++ " not found.") }) := by
  refine ⟨?_, ?_, ?_, ?_⟩
  · cases hc : executeCommandSpec handlers msg.commandName msg.args <;>
      simp [handleExecuteCommand, hc]
  · intro e he
    simp [handleExecuteCommand, he]
  · intro r hr
    simp [handleExecuteCommand, hr]
  · intro hnone
    have he : executeCommandSpec handlers msg.commandName msg.args
        = Except.error ("Command " ++ msg.commandName ++ " not found.") := by
      simp [executeCommandSpec, hnone]
    simp [handleExecuteCommand, he]

/-- C2 witness: with no registered handlers, a request for `x:c` with
uuid `u1` is answered with the not-found error paired with `u1`. -/
theorem handleExecuteCommand_catches_errors_witness :
    handleExecuteCommand (executeCommandSpec [])
        { uuid := "u1", commandName := "x:c", args := "" }
      = { uuid := "u1", result := none,
          exception := some ("Command " ++ "x:c" ++ " not found.") } := by
  exact (handleExecuteCommand_catches_errors []
    { uuid := "u1", commandName := "x:c", args := "" }).2.2.2 rfl

/-- Freshness of a contribution for the registry, mirroring the
reference identity of a newly constructed contribution object: its
menu-entry slot either does not exist yet or is a non-empty list not
already containing this contribution. -/
def menuSlotFresh (reg : CommandsRegistry) (c : ExtensionCommandContribution) : Bool :=
  match alistLookup c.command reg.commandToMenuEntryMap with
  | none => true
  | some entryList => decide (c ∉ entryList) && decide (entryList ≠ [])

theorem registry_register_dispose_roundtrip (reg : CommandsRegistry)
    (c : ExtensionCommandContribution)
    (hid : c.command ∉ reg.commandIds)
    (hmenu : menuSlotFresh reg c = true) :
    (reg.registerCommandContribution c).disposeContribution c = reg := by
  obtain ⟨ids, m⟩ := reg
  have hids : (ids ++ [c.command]).erase c.command = ids := by
    rw [List.erase_append_right _ hid, List.erase_cons_head, List.append_nil]
  cases hm : alistLookup c.command m with
  | none =>
    have hreg : CommandsRegistry.registerCommandContribution ⟨ids, m⟩ c
        = ⟨ids ++ [c.command], m ++ [(c.command, [c])]⟩ := by
      simp [CommandsRegistry.registerCommandContribution, hid, hm]
    rw [hreg]
    have hlook : alistLookup c.command (m ++ [(c.command, [c])]) = some [c] := by
      rw [alistLookup_append_of_lookup_none c.command _ m hm]
      simp [alistLookup]
    simp only [CommandsRegistry.disposeContribution, hlook]
    rw [List.erase_cons_head]
    simp only [List.isEmpty_nil, if_pos]
    rw [alistEraseKey_append_singleton_of_lookup_none c.command [c] m hm, hids]
  | some entryList =>
    have hc : c ∉ entryList := by
      simp [menuSlotFresh, hm] at hmenu
      exact hmenu.1
    have hne : entryList ≠ [] := by
      simp [menuSlotFresh, hm] at hmenu
      exact hmenu.2
    have hreg : CommandsRegistry.registerCommandContribution ⟨ids, m⟩ c
        = ⟨ids ++ [c.command], alistSet c.command (entryList ++ [c]) m⟩ := by
      simp [CommandsRegistry.registerCommandContribution, hid, hm]
    rw [hreg]
    have hlook : alistLookup c.command (alistSet c.command (entryList ++ [c]) m)
        = some (entryList ++ [c]) := alistLookup_alistSet_self _ _ _
    have herase : (entryList ++ [c]).erase c = entryList := by
      rw [List.erase_append_right _ hc, List.erase_cons_head, List.append_nil]
    simp only [CommandsRegistry.disposeContribution, hlook, herase]
    rw [if_neg (by simpa [List.isEmpty_iff] using hne)]
    rw [alistSet_alistSet, alistSet_of_lookup_eq c.command entryList m hm, hids]

theorem register_dispose_restores_state (s : ExtensionContextState)
    (c : ExtensionCommandContribution)
    (hmeta : c ∉ s.metadataCommands)
    (hid : c.command ∉ s.commands.commandIds)
    (hmenu : menuSlotFresh s.commands c = true) :
    (ExtensionContextImpl.disposeCommandContribution
        (ExtensionContextImpl.registerCommandContribution s c).1 c).1 = s := by
  obtain ⟨meta, reg⟩ := s
  have hsplice : metadataSplice (meta ++ [c]) c = meta := by
    rw [metadataSplice, if_pos (List.mem_append_right meta (List.mem_singleton.mpr rfl))]
    rw [List.erase_append_right _ hmeta, List.erase_cons_head, List.append_nil]
  simp only [ExtensionContextImpl.registerCommandContribution,
    ExtensionContextImpl.disposeCommandContribution]
  rw [hsplice, registry_register_dispose_roundtrip reg c hid hmenu]

/-- C1: registering a command contribution appends it to the end of the
metadata command list and makes `getCommandFunction` of its id
non-null; disposing the returned disposable restores the whole state
(metadata command list, registry command id set and menu-entry map)
exactly to its pre-registration value, after which `getCommandFunction`
of the id is null again.  The freshness hypotheses express that the
registered contribution is a newly constructed object whose command id
is not yet registered. -/
theorem registerCommandContribution_roundtrip (s : ExtensionContextState)
    (c : ExtensionCommandContribution)
    (hmeta : c ∉ s.metadataCommands)
    (hid : c.command ∉ s.commands.commandIds)
    (hmenu : menuSlotFresh s.commands c = true) :
    (ExtensionContextImpl.registerCommandContribution s c).1.metadataCommands
        = s.metadataCommands ++ [c] ∧
    ((ExtensionContextImpl.registerCommandContribution
        s c).1.commands.getCommandFunction c.command).isSome = true ∧
    (ExtensionContextImpl.disposeCommandContribution
        (ExtensionContextImpl.registerCommandContribution s c).1 c).1 = s ∧
    (ExtensionContextImpl.disposeCommandContribution
        (ExtensionContextImpl.registerCommandContribution
          s c).1 c).1.commands.getCommandFunction c.command = none := by
  have hrestore := register_dispose_restores_state s c hmeta hid hmenu
  refine ⟨rfl, ?_, hrestore, ?_⟩
  · simp [ExtensionContextImpl.registerCommandContribution,
      CommandsRegistry.registerCommandContribution, CommandsRegistry.getCommandFunction, hid]
  · rw [hrestore]
    simp [CommandsRegistry.getCommandFunction, hid]

/-- A concrete pre-registration state matching the example of spec
section 8: metadata declares `ext:a` and `ext:b`, both registered. -/
def stateExampleAB : ExtensionContextState :=
  { metadataCommands := [mkContribution "ext:a", mkContribution "ext:b"]
    commands :=
      { commandIds := ["ext:a", "ext:b"]
        commandToMenuEntryMap :=
          [("ext:a", [mkContribution "ext:a"]), ("ext:b", [mkContribution "ext:b"])] } }

/-- C1 witness: registering `ext:c` on the example state appends it to
the metadata list and registers its command function; disposing
restores the example state and nulls the command function. -/
theorem registerCommandContribution_roundtrip_witness :
    (ExtensionContextImpl.registerCommandContribution stateExampleAB
        (mkContribution "ext:c")).1.metadataCommands
        = stateExampleAB.metadataCommands ++ [mkContribution "ext:c"] ∧
    ((ExtensionContextImpl.registerCommandContribution stateExampleAB
        (mkContribution "ext:c")).1.commands.getCommandFunction
        (mkContribution "ext:c").command).isSome = true ∧
    (ExtensionContextImpl.disposeCommandContribution
        (ExtensionContextImpl.registerCommandContribution stateExampleAB
          (mkContribution "ext:c")).1 (mkContribution "ext:c")).1 = stateExampleAB ∧
    (ExtensionContextImpl.disposeCommandContribution
        (ExtensionContextImpl.registerCommandContribution stateExampleAB
          (mkContribution "ext:c")).1
        (mkContribution "ext:c")).1.commands.getCommandFunction
        (mkContribution "ext:c").command = none := by
  exact registerCommandContribution_roundtrip stateExampleAB (mkContribution "ext:c")
    (by decide) (by decide) (by decide)

/-- C9: the disposer returned by `_registerCommandContribution`
performs exactly the inverses of the three registration effects
(metadata append, registry registration, registration-changed
notification) in reverse execution order, and restores the state to its
pre-registration value, so registration is reversed as one unit. -/
theorem disposeCommandContribution_reverses_steps (s : ExtensionContextState)
    (c : ExtensionCommandContribution)
    (hmeta : c ∉ s.metadataCommands)
    (hid : c.command ∉ s.commands.commandIds)
    (hmenu : menuSlotFresh s.commands c = true) :
    (ExtensionContextImpl.registerCommandContribution s c).2
        = [RegEffect.metadataAppend c, RegEffect.registryRegister c,
           RegEffect.notifyChanged] ∧
    (ExtensionContextImpl.disposeCommandContribution
        (ExtensionContextImpl.registerCommandContribution s c).1 c).2
        = ((ExtensionContextImpl.registerCommandContribution s c).2.map undoEffect).reverse ∧
    (ExtensionContextImpl.disposeCommandContribution
        (ExtensionContextImpl.registerCommandContribution s c).1 c).1 = s := by
  exact ⟨rfl, rfl, register_dispose_restores_state s c hmeta hid hmenu⟩

/-- C9 witness: the effect traces and the restored state on the
concrete example state, for the contribution `ext:d`. -/
theorem disposeCommandContribution_reverses_steps_witness :
    (ExtensionContextImpl.registerCommandContribution stateExampleAB
        (mkContribution "ext:d")).2
        = [RegEffect.metadataAppend (mkContribution "ext:d"),
           RegEffect.registryRegister (mkContribution "ext:d"), RegEffect.notifyChanged] ∧
    (ExtensionContextImpl.disposeCommandContribution
        (ExtensionContextImpl.registerCommandContribution stateExampleAB
          (mkContribution "ext:d")).1 (mkContribution "ext:d")).2
        = ((ExtensionContextImpl.registerCommandContribution stateExampleAB
            (mkContribution "ext:d")).2.map undoEffect).reverse ∧
    (ExtensionContextImpl.disposeCommandContribution
        (ExtensionContextImpl.registerCommandContribution stateExampleAB
          (mkContribution "ext:d")).1 (mkContribution "ext:d")).1 = stateExampleAB := by
  exact disposeCommandContribution_reverses_steps stateExampleAB (mkContribution "ext:d")
    (by decide) (by decide) (by decide)

/-- The condition under which `sanitizeField` replaces a field: the
value is nullish (missing or null) or has the wrong runtime type. -/
def fieldMalformed (v defaultValue : JsValue) : Prop :=
  isNullish v = true ∨ jsTypeof v ≠ jsTypeof defaultValue

theorem sanitizeField_of_malformed {v d : JsValue} (h : fieldMalformed v d) :
    sanitizeField v d = d := if_pos h

theorem sanitizeField_of_wellTyped {v d : JsValue} (h1 : isNullish v = false)
    (h2 : jsTypeof v = jsTypeof d) : sanitizeField v d = v := by
  rw [sanitizeField, if_neg]
  rintro (hc | hc)
  · rw [h1] at hc
    exact Bool.false_ne_true hc
  · exact hc h2

theorem sanitizeStringEnumField_of_malformed {v : JsValue} {avail : List String} {d : String}
    (h : fieldMalformed v (.str d)) :
    sanitizeStringEnumField v avail d = .str d := by
  cases v with
  | str s =>
    rcases h with h | h
    · simp [isNullish] at h
    · simp [jsTypeof] at h
  | undefined => rfl
  | null => rfl
  | bool b => rfl
  | num q => rfl
  | obj i => rfl

theorem sanitizeField_num_shape (v : JsValue) (d : ℚ) :
    ∃ q : ℚ, sanitizeField v (.num d) = .num q := by
  cases v with
  | num q =>
    by_cases h : isNullish (JsValue.num q) = true
        ∨ jsTypeof (JsValue.num q) ≠ jsTypeof (JsValue.num d)
    · exact ⟨d, if_pos h⟩
    · exact ⟨q, if_neg h⟩
  | undefined => exact ⟨d, sanitizeField_of_malformed (Or.inl rfl)⟩
  | null => exact ⟨d, sanitizeField_of_malformed (Or.inl rfl)⟩
  | bool b => exact ⟨d, sanitizeField_of_malformed (Or.inr (by simp [jsTypeof]))⟩
  | str s => exact ⟨d, sanitizeField_of_malformed (Or.inr (by simp [jsTypeof]))⟩
  | obj i => exact ⟨d, sanitizeField_of_malformed (Or.inr (by simp [jsTypeof]))⟩

/-- C10: after `sanitizeGeneralConfig`, the numeric fields are clamped
into their fixed ranges: terminalFontSize into [4, 1024],
uiScalePercent into [5, 500] and
windowBackgroundTransparencyPercent into [0, 100]. -/
theorem sanitizeGeneralConfig_clamps_numeric_fields (env : SanitizeEnv) (g : GeneralConfig) :
    (∃ q : ℚ, (sanitizeGeneralConfig env g).terminalFontSize = .num q
      ∧ 4 ≤ q ∧ q ≤ 1024) ∧
    (∃ q : ℚ, (sanitizeGeneralConfig env g).uiScalePercent = .num q
      ∧ 5 ≤ q ∧ q ≤ 500) ∧
    (∃ q : ℚ, (sanitizeGeneralConfig env g).windowBackgroundTransparencyPercent = .num q
      ∧ 0 ≤ q ∧ q ≤ 100) := by
  obtain ⟨q1, h1⟩ := sanitizeField_num_shape g.terminalFontSize 13
  obtain ⟨q2, h2⟩ := sanitizeField_num_shape g.uiScalePercent 100
  obtain ⟨q3, h3⟩ := sanitizeField_num_shape g.windowBackgroundTransparencyPercent 50
  refine ⟨⟨max (min 1024 q1) 4, ?_, le_max_right _ _, max_le (min_le_left _ _) (by norm_num)⟩,
    ⟨min 500 (max 5 (if q2 = 0 then 100 else q2)), ?_,
      le_min (by norm_num) (le_max_left _ _), min_le_left _ _⟩,
    ⟨max (min 100 q3) 0, ?_, le_max_right _ _, max_le (min_le_left _ _) (by norm_num)⟩⟩
  · simp only [sanitizeGeneralConfig]
    rw [h1]
    rfl
  · simp only [sanitizeGeneralConfig]
    rw [h2]
    rfl
  · simp only [sanitizeGeneralConfig]
    rw [h3]
    rfl

/-- The fields of the general configuration, for field-indexed
statements about the sanitation pass. -/
inductive GeneralConfigField where
  | autoCopySelectionToClipboard
  | blinkingCursor
  | cursorStyle
  | frameByDefault
  | frameRule
  | frameRuleLines
  | gpuDriverWorkaround
  | isHardwareAccelerated
  | keybindingsName
  | minimizeToTray
  | scrollbackMaxFrames
  | scrollbackMaxLines
  | showTips
  | showTrayIcon
  | terminalFont
  | terminalFontSize
  | terminalDisplayLigatures
  | terminalMarginStyle
  | tipCounter
  | tipTimestamp
  | titleBarStyle
  | uiScalePercent
  | windowBackgroundMode
  | windowBackgroundTransparencyPercent
  | closeWindowWhenEmpty
  | middleMouseButtonAction
  | middleMouseButtonShiftAction
  | middleMouseButtonControlAction
  | rightMouseButtonAction
  | rightMouseButtonShiftAction
  | rightMouseButtonControlAction
  | activeExtensions
  | themeTerminal
  | themeSyntax
  | themeGUI
deriving DecidableEq, Repr

/-- Field projection of a general configuration object. -/
def getField (g : GeneralConfig) : GeneralConfigField → JsValue
  | .autoCopySelectionToClipboard => g.autoCopySelectionToClipboard
  | .blinkingCursor => g.blinkingCursor
  | .cursorStyle => g.cursorStyle
  | .frameByDefault => g.frameByDefault
  | .frameRule => g.frameRule
  | .frameRuleLines => g.frameRuleLines
  | .gpuDriverWorkaround => g.gpuDriverWorkaround
  | .isHardwareAccelerated => g.isHardwareAccelerated
  | .keybindingsName => g.keybindingsName
  | .minimizeToTray => g.minimizeToTray
  | .scrollbackMaxFrames => g.scrollbackMaxFrames
  | .scrollbackMaxLines => g.scrollbackMaxLines
  | .showTips => g.showTips
  | .showTrayIcon => g.showTrayIcon
  | .terminalFont => g.terminalFont
  | .terminalFontSize => g.terminalFontSize
  | .terminalDisplayLigatures => g.terminalDisplayLigatures
  | .terminalMarginStyle => g.terminalMarginStyle
  | .tipCounter => g.tipCounter
  | .tipTimestamp => g.tipTimestamp
  | .titleBarStyle => g.titleBarStyle
  | .uiScalePercent => g.uiScalePercent
  | .windowBackgroundMode => g.windowBackgroundMode
  | .windowBackgroundTransparencyPercent => g.windowBackgroundTransparencyPercent
  | .closeWindowWhenEmpty => g.closeWindowWhenEmpty
  | .middleMouseButtonAction => g.middleMouseButtonAction
  | .middleMouseButtonShiftAction => g.middleMouseButtonShiftAction
  | .middleMouseButtonControlAction => g.middleMouseButtonControlAction
  | .rightMouseButtonAction => g.rightMouseButtonAction
  | .rightMouseButtonShiftAction => g.rightMouseButtonShiftAction
  | .rightMouseButtonControlAction => g.rightMouseButtonControlAction
  | .activeExtensions => g.activeExtensions
  | .themeTerminal => g.themeTerminal
  | .themeSyntax => g.themeSyntax
  | .themeGUI => g.themeGUI

/-- The documented default value of each general configuration field,
as passed to the sanitize calls in `sanitizeGeneralConfig` (part_001
lines 195-272). -/
def generalConfigFieldDefault (env : SanitizeEnv) : GeneralConfigField → JsValue
  | .autoCopySelectionToClipboard => .bool true
  | .blinkingCursor => .bool false
  | .cursorStyle => .str "block"
  | .frameByDefault => .bool true
  | .frameRule => .str "frame_if_lines"
  | .frameRuleLines => .num 10
  | .gpuDriverWorkaround => .str "none"
  | .isHardwareAccelerated => .bool true
  | .keybindingsName =>
    .str (if env.platform = "darwin" then KEYBINDINGS_OSX else KEYBINDINGS_PC)
  | .minimizeToTray => .bool false
  | .scrollbackMaxFrames => .num 100
  | .scrollbackMaxLines => .num 500000
  | .showTips => .str "always"
  | .showTrayIcon => .bool false
  | .terminalFont => .str DEFAULT_TERMINALFONT
  | .terminalFontSize => .num 13
  | .terminalDisplayLigatures => .bool true
  | .terminalMarginStyle => .str "normal"
  | .tipCounter => .num 0
  | .tipTimestamp => .num 0
  | .titleBarStyle => .str "compact"
  | .uiScalePercent => .num 100
  | .windowBackgroundMode => .str "opaque"
  | .windowBackgroundTransparencyPercent => .num 50
  | .closeWindowWhenEmpty => .bool true
  | .middleMouseButtonAction => .str "paste"
  | .middleMouseButtonShiftAction => .str "paste"
  | .middleMouseButtonControlAction => .str "paste"
  | .rightMouseButtonAction => .str "context_menu"
  | .rightMouseButtonShiftAction => .str "context_menu"
  | .rightMouseButtonControlAction => .str "context_menu"
  | .activeExtensions => .obj 0
  | .themeTerminal => .str env.fallbackTerminalTheme
  | .themeSyntax => .str env.fallbackSyntaxTheme
  | .themeGUI => .str "two-dark-ui"

/-- C6: the sanitation pass is total and field-by-field.  A well-typed
field value is left unchanged by `sanitizeField`, a malformed field is
replaced by `sanitizeField` with its default, every malformed general
configuration field is individually replaced with its documented
default, and the session configuration is likewise repaired per entry
(a missing or non-array session list becomes the empty list, and an
array is never rejected: every entry survives with its malformed fields
defaulted). -/
theorem sanitation_replaces_malformed_fields_individually
    (env : SanitizeEnv) (g : GeneralConfig) (v d : JsValue)
    (freshUuid : ℕ → String) (u : String)
    (sessions : List SessionConfigurationJs) (sc : SessionConfigurationJs) :
    (isNullish v = false → jsTypeof v = jsTypeof d → sanitizeField v d = v) ∧
    (fieldMalformed v d → sanitizeField v d = d) ∧
    (∀ f : GeneralConfigField,
      fieldMalformed (getField g f) (generalConfigFieldDefault env f) →
        getField (sanitizeGeneralConfig env g) f = generalConfigFieldDefault env f) ∧
    sanitizeSessionConfig freshUuid .notArray = [] ∧
    (sanitizeSessionConfig freshUuid (.arr sessions)).length = sessions.length ∧
    (fieldMalformed sc.name (.str "") → (sanitizeSessionConfiguration u sc).name = .str "") ∧
    (fieldMalformed sc.uuid (.str u) → (sanitizeSessionConfiguration u sc).uuid = .str u) ∧
    (jsTypeof sc.sessionType ≠ "string" →
      (sanitizeSessionConfiguration u sc).sessionType = .str "") ∧
    (isNullish sc.initialDirectory = true ∨ jsTypeof sc.initialDirectory ≠ "string" →
      (sanitizeSessionConfiguration u sc).initialDirectory = .null) ∧
    (fieldMalformed sc.args (.str "") → (sanitizeSessionConfiguration u sc).args = .str "") := by
  refine ⟨fun h1 h2 => sanitizeField_of_wellTyped h1 h2,
    fun h => sanitizeField_of_malformed h, ?_, rfl, ?_, ?_, ?_, ?_, ?_, ?_⟩
  · intro f h
    cases f <;> simp only [getField, generalConfigFieldDefault] at h ⊢ <;>
      simp only [sanitizeGeneralConfig] <;>
      first
        | exact sanitizeField_of_malformed h
        | exact sanitizeStringEnumField_of_malformed h
        | rfl
        | (rw [sanitizeField_of_malformed h]
           first
             | exact ite_self _
             | norm_num [clampNum, uiScaleClampNum, min_def, max_def])
  · simp [sanitizeSessionConfig]
  · intro h
    exact sanitizeField_of_malformed h
  · intro h
    exact sanitizeField_of_malformed h
  · intro h
    exact if_pos h
  · intro h
    exact if_pos h
  · intro h
    exact sanitizeField_of_malformed h

/-- A concrete sanitation environment for the witness. -/
def sanitizeEnvExample : SanitizeEnv :=
  { platform := "linux"
    allLogicalKeybindingsNames := ["pc-style", "macos-style"]
    availableFonts := ["LigaDejaVuSansMono"]
    getThemeType := fun _ => none
    fallbackTerminalTheme := "fallback-terminal"
    fallbackSyntaxTheme := "fallback-syntax" }

/-- A fully corrupt general configuration object: every field null. -/
def generalConfigAllNull : GeneralConfig :=
  { autoCopySelectionToClipboard := .null, blinkingCursor := .null, cursorStyle := .null
    frameByDefault := .null, frameRule := .null, frameRuleLines := .null
    gpuDriverWorkaround := .null, isHardwareAccelerated := .null, keybindingsName := .null
    minimizeToTray := .null, scrollbackMaxFrames := .null, scrollbackMaxLines := .null
    showTips := .null, showTrayIcon := .null, terminalFont := .null
    terminalFontSize := .null, terminalDisplayLigatures := .null, terminalMarginStyle := .null
    tipCounter := .null, tipTimestamp := .null, titleBarStyle := .null
    uiScalePercent := .null, windowBackgroundMode := .null
    windowBackgroundTransparencyPercent := .null, closeWindowWhenEmpty := .null
    middleMouseButtonAction := .null, middleMouseButtonShiftAction := .null
    middleMouseButtonControlAction := .null, rightMouseButtonAction := .null
    rightMouseButtonShiftAction := .null, rightMouseButtonControlAction := .null
    activeExtensions := .null, themeTerminal := .null, themeSyntax := .null
    themeGUI := .null }

/-- A session entry with every field null. -/
def sessionAllNull : SessionConfigurationJs :=
  { name := .null, uuid := .null, sessionType := .null, initialDirectory := .null
    args := .null }

/-- C6 witness: a well-typed boolean field survives `sanitizeField`,
the all-null configuration gets the documented defaults (shown for the
terminal font size field), a non-array session list becomes empty, and
the all-null session entry gets its name defaulted. -/
theorem sanitation_replaces_malformed_fields_individually_witness :
    sanitizeField (.bool false) (.bool true) = .bool false ∧
    getField (sanitizeGeneralConfig sanitizeEnvExample generalConfigAllNull)
        GeneralConfigField.terminalFontSize
      = generalConfigFieldDefault sanitizeEnvExample GeneralConfigField.terminalFontSize ∧
    sanitizeSessionConfig (fun _ => "uuid-0") .notArray = [] ∧
    (sanitizeSessionConfiguration "uuid-0" sessionAllNull).name = .str "" := by
  have h := sanitation_replaces_malformed_fields_individually sanitizeEnvExample
    generalConfigAllNull (.bool false) (.bool true) (fun _ => "uuid-0") "uuid-0"
    [] sessionAllNull
  exact ⟨h.1 rfl rfl, h.2.2.1 GeneralConfigField.terminalFontSize (Or.inl rfl),
    h.2.2.2.1, h.2.2.2.2.2.1 (Or.inl rfl)⟩

end Extraterm
